import Mathlib

/-!
Verification of the drain scheduling engine of draino
(src/internal/kubernetes/drainSchedule.go).

Modelling conventions:
* Go `time.Time` and `time.Duration` are integers counting nanoseconds;
  the Go zero time is the integer 0 (`IsZero` is `= 0`), and
  `a.Before(b)` is `a < b`.
* The map `schedules map[string]*schedule` is an association list with
  unique keys; `lookup` is Go map indexing.
* The external collaborators (`Drainer.MarkDrain` under `RetryWithTimeout`,
  `Drainer.Drain`) are nondeterministic: their outcome is passed to each
  operation as an explicit `Option String` (`none` = success, `some msg` =
  the final error after the retry budget is exhausted).
* The timer of a `schedule` is a `timerStopped` flag: `timer.Stop()` sets
  it, and the armed timer of a fresh schedule has it `false`.
-/

abbrev Time := Int

abbrev Duration := Int

/-- One nanosecond of Go `time.Duration`. -/
def timeNanosecond : Duration := 1

/-- One millisecond of Go `time.Duration` (10^6 nanoseconds). -/
def timeMillisecond : Duration := 1000000

/-- One second of Go `time.Duration` (10^9 nanoseconds). -/
def timeSecond : Duration := 1000000000

/-- Go `a.Before(b)` on `time.Time`. -/
def timeBefore (a b : Time) : Bool := decide (a < b)

/-- Go `a.IsZero()` on `time.Time`. -/
def timeIsZero (a : Time) : Bool := decide (a = 0)

/-- Constant `SetConditionTimeout = 10 * time.Second` from drainSchedule.go. -/
def SetConditionTimeout : Duration := 10 * timeSecond

/-- Constant `SetConditionRetryPeriod = 50 * time.Millisecond` from drainSchedule.go. -/
def SetConditionRetryPeriod : Duration := 50 * timeMillisecond

/-- The per-node `schedule` struct: target time `when`, atomic failure flag
`failed` (an int32: 0 initially, 1 after `setFailed`), completion time
`finish` (zero means not finished), and the timer handle, modelled by
whether `Stop` has been called on it. -/
structure schedule where
  when : Time
  failed : Int
  finish : Time
  timerStopped : Bool
deriving Repr, DecidableEq

/-- Go `(s *schedule) setFailed()`: atomically store 1 into `failed`. -/
def schedule.setFailed (s : schedule) : schedule := { s with failed := 1 }

/-- Go `(s *schedule) isFailed()`: atomically load `failed` and compare to 1. -/
def schedule.isFailed (s : schedule) : Bool := decide (s.failed = 1)

/-- Effect of `s.timer.Stop()` on the schedule's timer handle. -/
def schedule.stopTimer (s : schedule) : schedule := { s with timerStopped := true }

/-- The engine state `DrainSchedules`: the guarded map of schedules, the
stagger input `lastDrainScheduledFor`, and the configured `period`.
The logger, drainer and event recorder are external collaborators. -/
structure DrainSchedules where
  schedules : List (String × schedule)
  lastDrainScheduledFor : Time
  period : Duration
deriving Repr, DecidableEq

/-- Go `NewDrainSchedules(...)`: empty map; `lastDrainScheduledFor` is left
at the zero time. -/
def NewDrainSchedules (period : Duration) : DrainSchedules :=
  { schedules := [], lastDrainScheduledFor := 0, period := period }

/-- The errors `Schedule` can return: the typed `*AlreadyScheduledError`,
or the error from the initial `MarkDrain` announcement after
`RetryWithTimeout` exhausted its budget. -/
inductive DrainError where
  | alreadyScheduled
  | announcementFailure (msg : String)
deriving Repr, DecidableEq

/-- Go `NewAlreadyScheduledError()`. -/
def NewAlreadyScheduledError : DrainError := .alreadyScheduled

/-- Go `IsAlreadyScheduledError(err)`: the type assertion to
`*AlreadyScheduledError`. -/
def IsAlreadyScheduledError : DrainError → Bool
  | .alreadyScheduled => true
  | .announcementFailure _ => false

namespace DrainSchedules

/-- Go `(d *DrainSchedules) IsScheduledByOldEvent(name, transitionTime)`:
under the lock, look the name up; absent gives false, otherwise
`sched.when.Before(transitionTime) && !sched.isFailed() && !sched.finish.IsZero()`. -/
def IsScheduledByOldEvent (d : DrainSchedules) (name : String) (transitionTime : Time) : Bool :=
  match d.schedules.lookup name with
  | none => false
  | some sched => timeBefore sched.when transitionTime && !sched.isFailed && !(timeIsZero sched.finish)

/-- Go `(d *DrainSchedules) HasSchedule(name)`: under the lock, `(false, false)`
when the name is absent, otherwise `(true, sched.isFailed())`. -/
def HasSchedule (d : DrainSchedules) (name : String) : Bool × Bool :=
  match d.schedules.lookup name with
  | none => (false, false)
  | some sched => (true, sched.isFailed)

/-- Go `(d *DrainSchedules) DeleteSchedule(name)`: under the lock, if the
entry is present, stop its timer and delete it from the map (the second
component returns the removed, timer-stopped entry); if absent, log a
warning and change nothing. -/
def DeleteSchedule (d : DrainSchedules) (name : String) : DrainSchedules × Option schedule :=
  match d.schedules.lookup name with
  | some s =>
      ({ d with schedules := d.schedules.filter (fun p => !(p.1 == name)) }, some s.stopTimer)
  | none => (d, none)

/-- Go `(d *DrainSchedules) WhenNextSchedule()`: `sooner` is
`time.Now().Add(SetConditionTimeout + time.Second)`; the candidate is
`lastDrainScheduledFor.Add(period)`; the candidate is floored at `sooner`.
`now` is the wall clock read by `time.Now()`. -/
def WhenNextSchedule (d : DrainSchedules) (now : Time) : Time :=
  let sooner : Time := now + (SetConditionTimeout + timeSecond)
  let when : Time := d.lastDrainScheduledFor + d.period
  if timeBefore when sooner then sooner else when

/-- Go `(d *DrainSchedules) newSchedule(node, when)` without the timer
closure (whose body is `timerCallback` below): a fresh entry with the given
`when`, zero `finish`, clear `failed` flag and an armed timer. -/
def newSchedule (when : Time) : schedule :=
  { when := when, failed := 0, finish := 0, timerStopped := false }

/-- Go `(d *DrainSchedules) Schedule(node)`. `now` is the wall clock;
`markDrainErr` is the outcome of
`RetryWithTimeout(MarkDrain(node, when, zero, false), ...)` for the initial
announcement (`none` = success). Under the lock: an existing entry returns
its `when` and `NewAlreadyScheduledError()`. Otherwise compute `when`,
record it in `lastDrainScheduledFor`, insert the new schedule, then
announce; on announcement failure delete the schedule again and return the
zero time with the error. -/
def Schedule (d : DrainSchedules) (nodeName : String) (now : Time) (markDrainErr : Option String) :
    DrainSchedules × Time × Option DrainError :=
  match d.schedules.lookup nodeName with
  | some sched => (d, sched.when, some NewAlreadyScheduledError)
  | none =>
      let when := d.WhenNextSchedule now
      let d1 : DrainSchedules :=
        { d with lastDrainScheduledFor := when,
                 schedules := (nodeName, newSchedule when) :: d.schedules }
      match markDrainErr with
      | none => (d1, when, none)
      | some e => ((d1.DeleteSchedule nodeName).1, 0, some (.announcementFailure e))

end DrainSchedules

/-- What the timer closure of `newSchedule` does once `Drain` has returned,
beyond events and metrics: the updated schedule, the arguments
`(when, finish, failed)` it passes to the `MarkDrain` outcome announcement,
and the error it propagates out of the callback (always `none`: a failed
outcome announcement is only logged). -/
structure fireOutcome where
  sched : schedule
  markWhen : Time
  markFinish : Time
  markFailed : Bool
  propagated : Option String
deriving Repr, DecidableEq

/-- The body of the timer closure built in `newSchedule`, after
`d.drainer.Drain(node)` has returned `drainErr`. On error: set
`sched.finish = time.Now()`, then `sched.setFailed()`, then announce
`MarkDrain(node, when, sched.finish, true)` under retry, logging (never
propagating) `markDrainErr`. On success: set `sched.finish = time.Now()`
and announce `MarkDrain(node, when, sched.finish, false)`, again only
logging a failure of that announcement. -/
def timerCallback (sched : schedule) (drainErr : Option String) (now : Time)
    (markDrainErr : Option String) : fireOutcome :=
  match drainErr with
  | some _ =>
      let sched1 := { sched with finish := now }
      let sched2 := sched1.setFailed
      { sched := sched2, markWhen := sched2.when, markFinish := sched2.finish,
        markFailed := true, propagated := none }
  | none =>
      let sched1 := { sched with finish := now }
      { sched := sched1, markWhen := sched1.when, markFinish := sched1.finish,
        markFailed := false, propagated := none }

namespace DrainSchedules

/-- The engine state after the timer for `name` fires: the Go closure
mutates the captured `*schedule` in place, so while the map still holds
that same pointer, map readers observe the callback's updates. An entry
that has been deleted leaves the map unchanged. -/
def timerFire (d : DrainSchedules) (name : String) (drainErr : Option String) (now : Time)
    (markDrainErr : Option String) : DrainSchedules :=
  match d.schedules.lookup name with
  | none => d
  | some sched =>
      let out := timerCallback sched drainErr now markDrainErr
      { d with schedules := d.schedules.map (fun p => if p.1 == name then (p.1, out.sched) else p) }

end DrainSchedules

/-- The operations of the engine, for invariants quantified over every
operation: `Schedule`, `DeleteSchedule`, the two queries, and a timer
firing. -/
inductive EngineOp where
  | scheduleOp (name : String) (now : Time) (markDrainErr : Option String)
  | deleteOp (name : String)
  | hasScheduleOp (name : String)
  | oldEventOp (name : String) (t : Time)
  | fireOp (name : String) (drainErr : Option String) (now : Time) (markDrainErr : Option String)
deriving Repr, DecidableEq

/-- The engine state each operation leaves behind (the queries
`HasSchedule` and `IsScheduledByOldEvent` only read under the lock). -/
def EngineOp.apply : EngineOp → DrainSchedules → DrainSchedules
  | .scheduleOp n now me, d => (d.Schedule n now me).1
  | .deleteOp n, d => (d.DeleteSchedule n).1
  | .hasScheduleOp _, d => d
  | .oldEventOp _ _, d => d
  | .fireOp n de now me, d => d.timerFire n de now me

/-! Helper lemmas about association-list lookup. -/

/-- Unfolding of `List.lookup` on a cons cell. -/
theorem lookup_cons (name k : String) (s : schedule) (l : List (String × schedule)) :
    ((k, s) :: l).lookup name = if (name == k) then some s else l.lookup name := by
  cases h : name == k <;> simp [List.lookup, h]

/-- Looking up a key it was just inserted under finds the new entry. -/
theorem lookup_cons_self (name : String) (s : schedule) (l : List (String × schedule)) :
    ((name, s) :: l).lookup name = some s := by
  simp [lookup_cons]

/-- Looking up a different key skips a cons cell. -/
theorem lookup_cons_ne (name k : String) (s : schedule) (l : List (String × schedule))
    (h : name ≠ k) : ((k, s) :: l).lookup name = l.lookup name := by
  simp [lookup_cons, h]

/-- After filtering out every entry for a key, the key is absent. -/
theorem lookup_filter_key (name : String) (l : List (String × schedule)) :
    (l.filter (fun p => !(p.1 == name))).lookup name = none := by
  induction l with
  | nil => rfl
  | cons p t ih =>
      rcases p with ⟨k, v⟩
      by_cases hk : k = name
      · simp [List.filter_cons, hk, ih]
      · have h1 : (k == name) = false := by simp [hk]
        have h2 : (name == k) = false := by simp [Ne.symm hk]
        simp [List.filter_cons, h1, lookup_cons, h2, ih]

/-- Filtering out an absent key leaves the list unchanged. -/
theorem filter_key_of_lookup_none (name : String) (l : List (String × schedule))
    (h : l.lookup name = none) : l.filter (fun p => !(p.1 == name)) = l := by
  induction l with
  | nil => rfl
  | cons p t ih =>
      rcases p with ⟨k, v⟩
      rw [lookup_cons] at h
      by_cases hk : name = k
      · simp [hk] at h
      · have h2 : (name == k) = false := by simp [hk]
        simp only [h2, if_neg, Bool.false_eq_true, not_false_iff, if_false] at h
        have h1 : (k == name) = false := by simp [Ne.symm hk]
        simp [List.filter_cons, h1, ih h]

/-- Rewriting the entry for a present key updates exactly its lookup. -/
theorem lookup_map_update_self (name : String) (s : schedule) (l : List (String × schedule))
    (sched : schedule) (h : l.lookup name = some sched) :
    (l.map (fun p => if p.1 == name then (p.1, s) else p)).lookup name = some s := by
  induction l with
  | nil => simp [List.lookup] at h
  | cons p t ih =>
      rcases p with ⟨k, v⟩
      by_cases hk : name = k
      · subst hk
        simp [List.map_cons, lookup_cons]
      · have h2 : (name == k) = false := by simp [hk]
        have h1 : (k == name) = false := by simp [Ne.symm hk]
        rw [lookup_cons] at h
        simp only [h2, if_neg, Bool.false_eq_true, not_false_iff, if_false] at h
        simp only [List.map_cons]
        rw [show (if ((k, v).1 == name) = true then ((k, v).1, s) else (k, v)) = (k, v) by
          simp [h1]]
        rw [lookup_cons]
        simp only [h2, Bool.false_eq_true, if_false]
        exact ih h

/-! Shared facts about the operations. -/

/-- The stagger computation is a maximum. -/
theorem whenNextSchedule_eq_max (d : DrainSchedules) (now : Time) :
    d.WhenNextSchedule now =
      max (d.lastDrainScheduledFor + d.period) (now + (SetConditionTimeout + timeSecond)) := by
  unfold DrainSchedules.WhenNextSchedule
  simp only [timeBefore, decide_eq_true_eq, max_def]
  split_ifs <;> linarith

/-- The computed time never falls behind `lastDrainScheduledFor` when the
period is non-negative. -/
theorem le_whenNextSchedule (d : DrainSchedules) (now : Time) (h : 0 ≤ d.period) :
    d.lastDrainScheduledFor ≤ d.WhenNextSchedule now := by
  unfold DrainSchedules.WhenNextSchedule
  simp only [timeBefore, decide_eq_true_eq]
  split_ifs <;> linarith

/-- Unfolding of `Schedule` for a fresh node whose announcement succeeds. -/
theorem schedule_success_eq (d : DrainSchedules) (name : String) (now : Time)
    (h : d.schedules.lookup name = none) :
    d.Schedule name now none =
      ({ d with lastDrainScheduledFor := d.WhenNextSchedule now,
                schedules :=
                  (name, DrainSchedules.newSchedule (d.WhenNextSchedule now)) :: d.schedules },
        d.WhenNextSchedule now, none) := by
  unfold DrainSchedules.Schedule
  simp [h]

/-- `DeleteSchedule` never touches `lastDrainScheduledFor`. -/
theorem deleteSchedule_lastDrain (d : DrainSchedules) (name : String) :
    ((d.DeleteSchedule name).1).lastDrainScheduledFor = d.lastDrainScheduledFor := by
  unfold DrainSchedules.DeleteSchedule
  cases h : d.schedules.lookup name <;> simp [h]

/-- A timer firing never touches `lastDrainScheduledFor`. -/
theorem timerFire_lastDrain (d : DrainSchedules) (name : String) (de : Option String)
    (now : Time) (me : Option String) :
    (d.timerFire name de now me).lastDrainScheduledFor = d.lastDrainScheduledFor := by
  unfold DrainSchedules.timerFire
  cases h : d.schedules.lookup name <;> simp [h]

/-! Sample states used to instantiate the theorems at concrete inputs. -/

/-- A pending entry for node "a", scheduled at time 5. -/
def sampleEntry : schedule := { when := 5, failed := 0, finish := 0, timerStopped := false }

/-- An engine state holding only the pending entry for "a", period 3ns. -/
def sampleState : DrainSchedules :=
  { schedules := [("a", sampleEntry)], lastDrainScheduledFor := 5, period := 3 }

/-- An entry for node "b" that finished successfully at time 9. -/
def sampleDoneEntry : schedule := { when := 5, failed := 0, finish := 9, timerStopped := false }

/-- An engine state holding only the finished entry for "b", period 3ns. -/
def sampleDoneState : DrainSchedules :=
  { schedules := [("b", sampleDoneEntry)], lastDrainScheduledFor := 5, period := 3 }

/-! The claims. -/

/-- C1: `WhenNextSchedule` returns the maximum of
`lastDrainScheduledFor + period` and the floor
`now + SetConditionTimeout + 1s`: it returns the former whenever that is
not before the floor, and the floor otherwise. -/
theorem whenNextSchedule_is_max (d : DrainSchedules) (now : Time) :
    d.WhenNextSchedule now =
      max (d.lastDrainScheduledFor + d.period) (now + (SetConditionTimeout + timeSecond)) :=
  whenNextSchedule_eq_max d now

/-- Witness for C1 at a concrete state and clock. -/
theorem whenNextSchedule_is_max_witness :
    sampleState.WhenNextSchedule 0 =
      max (sampleState.lastDrainScheduledFor + sampleState.period)
        (0 + (SetConditionTimeout + timeSecond)) :=
  whenNextSchedule_is_max sampleState 0

/-- C4: `IsScheduledByOldEvent name t` is true exactly when an entry for
`name` exists whose `finish` is non-zero, whose failed flag is clear, and
whose `when` is strictly before `t`; in every other case it is false. -/
theorem isScheduledByOldEvent_iff (d : DrainSchedules) (name : String) (t : Time) :
    d.IsScheduledByOldEvent name t = true ↔
      ∃ sched, d.schedules.lookup name = some sched ∧
        sched.finish ≠ 0 ∧ sched.isFailed = false ∧ sched.when < t := by
  unfold DrainSchedules.IsScheduledByOldEvent
  cases h : d.schedules.lookup name with
  | none => simp [h]
  | some sched =>
      simp only [h, Bool.and_eq_true, Bool.not_eq_true', timeBefore, timeIsZero,
        decide_eq_true_eq, decide_eq_false_iff_not, Option.some.injEq]
      constructor
      · rintro ⟨⟨hw, hf⟩, hz⟩
        exact ⟨sched, rfl, hz, hf, hw⟩
      · rintro ⟨s, hs, hz, hf, hw⟩
        cases hs
        exact ⟨⟨hw, hf⟩, hz⟩

/-- Witness for C4 at a concrete finished entry. -/
theorem isScheduledByOldEvent_iff_witness :
    sampleDoneState.IsScheduledByOldEvent "b" 10 = true ↔
      ∃ sched, sampleDoneState.schedules.lookup "b" = some sched ∧
        sched.finish ≠ 0 ∧ sched.isFailed = false ∧ sched.when < 10 :=
  isScheduledByOldEvent_iff sampleDoneState "b" 10

/-- C8: `HasSchedule` returns `(false, false)` for an absent name and
`(true, failed flag)` for a present one, and as an engine operation it
leaves the state untouched. -/
theorem hasSchedule_spec (d : DrainSchedules) (name : String) :
    (d.schedules.lookup name = none → d.HasSchedule name = (false, false)) ∧
    (∀ sched, d.schedules.lookup name = some sched →
        d.HasSchedule name = (true, sched.isFailed)) ∧
    EngineOp.apply (.hasScheduleOp name) d = d := by
  refine ⟨?_, ?_, rfl⟩ <;> unfold DrainSchedules.HasSchedule
  · intro h; simp [h]
  · intro sched h; simp [h]

/-- Witness for C8: a present and an absent name in concrete states. -/
theorem hasSchedule_spec_witness :
    sampleState.schedules.lookup "a" = some sampleEntry ∧
    sampleState.HasSchedule "a" = (true, sampleEntry.isFailed) ∧
    (NewDrainSchedules 2).schedules.lookup "z" = none ∧
    (NewDrainSchedules 2).HasSchedule "z" = (false, false) :=
  ⟨rfl, (hasSchedule_spec sampleState "a").2.1 sampleEntry rfl, rfl,
    (hasSchedule_spec (NewDrainSchedules 2) "z").1 rfl⟩

/-- C3: scheduling a node that already has an active entry returns the
existing entry's `when` together with an error recognized by
`IsAlreadyScheduledError`, and the whole engine state — map, entry time,
`lastDrainScheduledFor` — is returned unchanged. -/
theorem schedule_already_scheduled (d : DrainSchedules) (name : String) (now : Time)
    (markDrainErr : Option String) (sched : schedule)
    (h : d.schedules.lookup name = some sched) :
    (d.Schedule name now markDrainErr).1 = d ∧
    (d.Schedule name now markDrainErr).2.1 = sched.when ∧
    ∃ err, (d.Schedule name now markDrainErr).2.2 = some err ∧
      IsAlreadyScheduledError err = true := by
  unfold DrainSchedules.Schedule
  refine ⟨by simp [h], by simp [h], NewAlreadyScheduledError, by simp [h], rfl⟩

/-- Witness for C3: a second Schedule call for node "a" in `sampleState`. -/
theorem schedule_already_scheduled_witness :
    sampleState.schedules.lookup "a" = some sampleEntry ∧
    (sampleState.Schedule "a" 20 none).1 = sampleState ∧
    (sampleState.Schedule "a" 20 none).2.1 = sampleEntry.when :=
  ⟨rfl, (schedule_already_scheduled sampleState "a" 20 none sampleEntry rfl).1,
    (schedule_already_scheduled sampleState "a" 20 none sampleEntry rfl).2.1⟩

/-- C10: whenever `Schedule` returns the announcement-failure error of the
rollback path, the time it returns is the zero time; the computed `when` is
returned only with a nil error, and an existing entry's `when` only with
the AlreadyScheduled error. -/
theorem schedule_error_time_is_zero (d : DrainSchedules) (name : String) (now : Time)
    (markDrainErr : Option String) :
    (∀ msg, (d.Schedule name now markDrainErr).2.2 = some (.announcementFailure msg) →
        (d.Schedule name now markDrainErr).2.1 = 0) ∧
    ((d.Schedule name now markDrainErr).2.2 = none →
        (d.Schedule name now markDrainErr).2.1 = d.WhenNextSchedule now) ∧
    ((d.Schedule name now markDrainErr).2.2 = some .alreadyScheduled →
        ∃ sched, d.schedules.lookup name = some sched ∧
          (d.Schedule name now markDrainErr).2.1 = sched.when) := by
  unfold DrainSchedules.Schedule
  cases h : d.schedules.lookup name with
  | some sched => simp [h, NewAlreadyScheduledError]
  | none => cases markDrainErr <;> simp [h]

/-- Witness for C10 on the concrete rollback path. -/
theorem schedule_error_time_is_zero_witness :
    ((NewDrainSchedules 3).Schedule "c" 7 (some "down")).2.2 =
      some (.announcementFailure "down") ∧
    ((NewDrainSchedules 3).Schedule "c" 7 (some "down")).2.1 = 0 :=
  ⟨rfl, (schedule_error_time_is_zero (NewDrainSchedules 3) "c" 7 (some "down")).1 "down" rfl⟩

/-- C2: for a fresh node whose initial announcement ultimately fails,
`Schedule` returns the announcement error and tears the new entry down:
the map is exactly as before the call, the node has no entry, and
`HasSchedule` reports `(false, false)`. -/
theorem schedule_announcement_failure_rollback (d : DrainSchedules) (name : String)
    (now : Time) (msg : String) (h : d.schedules.lookup name = none) :
    (d.Schedule name now (some msg)).2.2 = some (.announcementFailure msg) ∧
    ((d.Schedule name now (some msg)).1).schedules = d.schedules ∧
    ((d.Schedule name now (some msg)).1).schedules.lookup name = none ∧
    ((d.Schedule name now (some msg)).1).HasSchedule name = (false, false) := by
  have hsched : ((d.Schedule name now (some msg)).1).schedules = d.schedules := by
    unfold DrainSchedules.Schedule DrainSchedules.DeleteSchedule
    simp only [h]
    simp [lookup_cons_self, List.filter_cons, filter_key_of_lookup_none name d.schedules h]
  refine ⟨?_, hsched, ?_, ?_⟩
  · unfold DrainSchedules.Schedule
    simp [h]
  · rw [hsched]; exact h
  · unfold DrainSchedules.HasSchedule
    rw [hsched, h]

/-- Witness for C2: announcement failure while scheduling "nodeC". -/
theorem schedule_announcement_failure_rollback_witness :
    (NewDrainSchedules 5).schedules.lookup "nodeC" = none ∧
    ((NewDrainSchedules 5).Schedule "nodeC" 7 (some "down")).2.2 =
      some (.announcementFailure "down") ∧
    ((NewDrainSchedules 5).Schedule "nodeC" 7 (some "down")).1.HasSchedule "nodeC" =
      (false, false) :=
  ⟨rfl, (schedule_announcement_failure_rollback (NewDrainSchedules 5) "nodeC" 7 "down" rfl).1,
    (schedule_announcement_failure_rollback (NewDrainSchedules 5) "nodeC" 7 "down" rfl).2.2.2⟩

/-- C9: deleting an existing entry stops its timer and removes it from the
map, so a subsequent `Schedule` for the same node succeeds with a freshly
computed time; deleting an absent name changes nothing. -/
theorem deleteSchedule_spec (d : DrainSchedules) (name : String) :
    (∀ sched, d.schedules.lookup name = some sched →
      (d.DeleteSchedule name).2 = some sched.stopTimer ∧
      (sched.stopTimer).timerStopped = true ∧
      ((d.DeleteSchedule name).1).schedules.lookup name = none ∧
      ∀ now, ((d.DeleteSchedule name).1.Schedule name now none).2.2 = none ∧
        ((d.DeleteSchedule name).1.Schedule name now none).2.1 =
          (d.DeleteSchedule name).1.WhenNextSchedule now) ∧
    (d.schedules.lookup name = none → d.DeleteSchedule name = (d, none)) := by
  constructor
  · intro sched h
    have hdel : d.DeleteSchedule name =
        ({ d with schedules := d.schedules.filter (fun p => !(p.1 == name)) },
          some sched.stopTimer) := by
      unfold DrainSchedules.DeleteSchedule
      simp [h]
    have hlk : ((d.DeleteSchedule name).1).schedules.lookup name = none := by
      rw [hdel]
      exact lookup_filter_key name d.schedules
    refine ⟨by rw [hdel], rfl, hlk, ?_⟩
    intro now
    rw [schedule_success_eq ((d.DeleteSchedule name).1) name now hlk]
    exact ⟨rfl, rfl⟩
  · intro h
    unfold DrainSchedules.DeleteSchedule
    simp [h]

/-- Witness for C9: deleting the entry of "a" and an absent "z". -/
theorem deleteSchedule_spec_witness :
    sampleState.schedules.lookup "a" = some sampleEntry ∧
    ((sampleState.DeleteSchedule "a").1).schedules.lookup "a" = none ∧
    ((sampleState.DeleteSchedule "a").1.Schedule "a" 11 none).2.2 = none ∧
    (NewDrainSchedules 2).schedules.lookup "z" = none ∧
    (NewDrainSchedules 2).DeleteSchedule "z" = (NewDrainSchedules 2, none) :=
  ⟨rfl, ((deleteSchedule_spec sampleState "a").1 sampleEntry rfl).2.2.1,
    (((deleteSchedule_spec sampleState "a").1 sampleEntry rfl).2.2.2 11).1, rfl,
    (deleteSchedule_spec (NewDrainSchedules 2) "z").2 rfl⟩

/-- C7: with a non-negative configured period, every engine operation
leaves `lastDrainScheduledFor` unchanged or moves it forward. -/
theorem lastDrainScheduledFor_monotone (op : EngineOp) (d : DrainSchedules)
    (h : 0 ≤ d.period) :
    d.lastDrainScheduledFor ≤ (op.apply d).lastDrainScheduledFor := by
  cases op with
  | scheduleOp n now me =>
      show d.lastDrainScheduledFor ≤ ((d.Schedule n now me).1).lastDrainScheduledFor
      unfold DrainSchedules.Schedule
      cases hl : d.schedules.lookup n with
      | some sched => simp [hl]
      | none =>
          cases me with
          | none => simpa [hl] using le_whenNextSchedule d now h
          | some e =>
              simp only [hl]
              rw [deleteSchedule_lastDrain]
              exact le_whenNextSchedule d now h
  | deleteOp n =>
      show d.lastDrainScheduledFor ≤ ((d.DeleteSchedule n).1).lastDrainScheduledFor
      rw [deleteSchedule_lastDrain]
  | hasScheduleOp n => exact le_refl _
  | oldEventOp n t => exact le_refl _
  | fireOp n de now me =>
      show d.lastDrainScheduledFor ≤ (d.timerFire n de now me).lastDrainScheduledFor
      rw [timerFire_lastDrain]

/-- Witness for C7: a successful Schedule call on a concrete state. -/
theorem lastDrainScheduledFor_monotone_witness :
    (0 : Int) ≤ sampleState.period ∧
    sampleState.lastDrainScheduledFor ≤
      ((EngineOp.scheduleOp "q" 4 none).apply sampleState).lastDrainScheduledFor :=
  ⟨by decide, lastDrainScheduledFor_monotone (.scheduleOp "q" 4 none) sampleState (by decide)⟩

/-- C6: after a successful Schedule call for a fresh node A, a successful
Schedule call for a fresh distinct node B computes a time at least
`when_A + period`, and exactly `when_A + period` once the announcement
floor for the second call no longer dominates. -/
theorem schedule_stagger (d : DrainSchedules) (nameA nameB : String) (now1 now2 : Time)
    (hab : nameA ≠ nameB) (hA : d.schedules.lookup nameA = none)
    (hB : d.schedules.lookup nameB = none) (hper : 0 ≤ d.period) :
    (d.Schedule nameA now1 none).2.1 + d.period ≤
      ((d.Schedule nameA now1 none).1.Schedule nameB now2 none).2.1 ∧
    (now2 + (SetConditionTimeout + timeSecond) ≤ (d.Schedule nameA now1 none).2.1 + d.period →
      ((d.Schedule nameA now1 none).1.Schedule nameB now2 none).2.1 =
        (d.Schedule nameA now1 none).2.1 + d.period) := by
  have h1 := schedule_success_eq d nameA now1 hA
  have hlkB : ((d.Schedule nameA now1 none).1).schedules.lookup nameB = none := by
    simp only [h1]
    rw [lookup_cons_ne nameB nameA _ _ (Ne.symm hab)]
    exact hB
  have h2 := schedule_success_eq ((d.Schedule nameA now1 none).1) nameB now2 hlkB
  have hmax := whenNextSchedule_eq_max ((d.Schedule nameA now1 none).1) now2
  have hlast : ((d.Schedule nameA now1 none).1).lastDrainScheduledFor =
      d.WhenNextSchedule now1 := by
    simp only [h1]
  have hper2 : ((d.Schedule nameA now1 none).1).period = d.period := by
    simp only [h1]
  have hwhenA : (d.Schedule nameA now1 none).2.1 = d.WhenNextSchedule now1 := by
    simp only [h1]
  rw [hlast, hper2] at hmax
  have hwhenB : ((d.Schedule nameA now1 none).1.Schedule nameB now2 none).2.1 =
      max (d.WhenNextSchedule now1 + d.period) (now2 + (SetConditionTimeout + timeSecond)) := by
    simp only [h2]
    exact hmax
  rw [hwhenA, hwhenB]
  constructor
  · exact le_max_left _ _
  · intro hfloor
    exact max_eq_left hfloor

/-- Witness for C6: nodes "A" then "B" at clock 0 with a 5-minute period. -/
theorem schedule_stagger_witness :
    ("A" : String) ≠ "B" ∧
    (0 : Int) ≤ (NewDrainSchedules (300 * timeSecond)).period ∧
    ((NewDrainSchedules (300 * timeSecond)).Schedule "A" 0 none).2.1 +
        (NewDrainSchedules (300 * timeSecond)).period ≤
      (((NewDrainSchedules (300 * timeSecond)).Schedule "A" 0 none).1.Schedule "B" 0 none).2.1 :=
  ⟨by decide, by decide,
    (schedule_stagger (NewDrainSchedules (300 * timeSecond)) "A" "B" 0 0
      (by decide) rfl rfl (by decide)).1⟩

/-- C5: when the timer fires and `Drain` fails at a non-zero wall clock,
the callback records a non-zero `finish` and the failed flag, the failure
announcement already sees both of them, the announcement's own error is
never propagated, and afterwards `HasSchedule` reports `(true, true)` while
`IsScheduledByOldEvent` is false at every transition time. -/
theorem timer_fired_drain_failed (d : DrainSchedules) (name : String) (sched : schedule)
    (e : String) (now : Time) (markDrainErr : Option String)
    (hlk : d.schedules.lookup name = some sched) (hnow : now ≠ 0) :
    (timerCallback sched (some e) now markDrainErr).sched.finish = now ∧
    (timerCallback sched (some e) now markDrainErr).sched.finish ≠ 0 ∧
    (timerCallback sched (some e) now markDrainErr).sched.isFailed = true ∧
    (timerCallback sched (some e) now markDrainErr).markFinish =
      (timerCallback sched (some e) now markDrainErr).sched.finish ∧
    (timerCallback sched (some e) now markDrainErr).markFailed = true ∧
    (timerCallback sched (some e) now markDrainErr).propagated = none ∧
    (d.timerFire name (some e) now markDrainErr).HasSchedule name = (true, true) ∧
    ∀ t, (d.timerFire name (some e) now markDrainErr).IsScheduledByOldEvent name t = false := by
  have hcb : timerCallback sched (some e) now markDrainErr =
      { sched := { sched with finish := now, failed := 1 },
        markWhen := sched.when, markFinish := now, markFailed := true,
        propagated := none } := by
    unfold timerCallback schedule.setFailed
    rfl
  have hcbs : (timerCallback sched (some e) now markDrainErr).sched =
      { sched with finish := now, failed := 1 } := by
    rw [hcb]
  have hlk2 : ((d.timerFire name (some e) now markDrainErr).schedules).lookup name =
      some { sched with finish := now, failed := 1 } := by
    unfold DrainSchedules.timerFire
    simp only [hlk, hcbs]
    exact lookup_map_update_self name _ d.schedules sched hlk
  refine ⟨by rw [hcb], by rw [hcb]; exact hnow, by rw [hcb]; rfl, by rw [hcb],
    by rw [hcb], by rw [hcb], ?_, ?_⟩
  · simp [DrainSchedules.HasSchedule, hlk2, schedule.isFailed]
  · intro t
    simp [DrainSchedules.IsScheduledByOldEvent, hlk2, schedule.isFailed]

/-- Witness for C5: the timer of "a" fires at clock 9, `Drain` fails, and
the failure announcement itself also fails. -/
theorem timer_fired_drain_failed_witness :
    sampleState.schedules.lookup "a" = some sampleEntry ∧
    (9 : Int) ≠ 0 ∧
    (timerCallback sampleEntry (some "boom") 9 (some "mark-fail")).propagated = none ∧
    (sampleState.timerFire "a" (some "boom") 9 (some "mark-fail")).HasSchedule "a" =
      (true, true) :=
  ⟨rfl, by decide,
    (timer_fired_drain_failed sampleState "a" sampleEntry "boom" 9 (some "mark-fail")
      rfl (by decide)).2.2.2.2.2.1,
    (timer_fired_drain_failed sampleState "a" sampleEntry "boom" 9 (some "mark-fail")
      rfl (by decide)).2.2.2.2.2.2.1⟩
